import Mathlib

/-!
# Trading engine: ledger store and order-book handlers

A shallow embedding of `DatabaseManager.cpp` (the SQLite-backed `orders` table and its
queries) and of the handlers of `main.cpp` (quote generation, market Buy/Sell buttons,
"Close Selected Order"), followed by theorems about them.

Conventions of the embedding:
* a C++ `double` is an exact rational (`ℚ`); a C++ `int` is an `Int`;
* the `orders` table is the list of its rows in rowid order;
* what SQLite decides outside the SQL text (whether a statement executes, in which order
  rows with equal sort key are delivered) is part of the state of the store;
* a table cell that shows a price with two decimals is the integer number of hundredths
  it displays (`"99.50"` is `9950`);
* ambient inputs (`rand()`, the clock, the row selected in a widget) are explicit arguments.
-/

namespace TradingEngine

/-! ## DatabaseManager.cpp -/

/-- One row of the `orders` table created by `initializeDatabase`:
`id INTEGER PRIMARY KEY AUTOINCREMENT, type TEXT, price REAL, quantity INTEGER,
status TEXT, timestamp DATETIME DEFAULT CURRENT_TIMESTAMP`. -/
structure Order where
  id : Nat
  type : String
  price : ℚ
  quantity : Int
  status : String
  timestamp : Nat
  deriving DecidableEq

/-- State of a `DatabaseManager` and of the file `trading.db` behind it.
* `isOpen`: whether `db.open()` succeeded;
* `orders`: the rows of `orders` in rowid order;
* `seq`: the AUTOINCREMENT counter SQLite keeps in `sqlite_sequence`;
* `canSelect`, `canInsert`: whether SQLite executes a `SELECT`, respectively an `INSERT`,
  on the open connection (an `INSERT` is refused on a read-only file, either statement on
  a file that is locked or damaged);
* `tieFirst a b`: for two rows with equal `price`, whether the query plan SQLite picks
  for this file delivers `a` before `b`. The SQL of the queries names `price` as the only
  sort key, so this order comes from the file (its indexes), not from the code. -/
structure DatabaseManager where
  isOpen : Bool
  orders : List Order
  seq : Nat
  canSelect : Bool
  canInsert : Bool
  tieFirst : Order → Order → Bool

/-- Tie order of a file without any index: the table is scanned in rowid order and rows
of equal price stay in that order. -/
def rowidTies : Order → Order → Bool := fun a b => decide (a.id < b.id)

/-- Tie order of a file carrying `CREATE INDEX ... ON orders(price)`: SQLite answers
`ORDER BY price DESC` (the Buy query) by walking that index backwards, so bids of equal
price come out in decreasing rowid order, and `ORDER BY price ASC` (the Sell query) by
walking it forwards, so asks of equal price come out in rowid order. -/
def priceIndexTies : Order → Order → Bool :=
  fun a b => if a.type == "Buy" then decide (b.id < a.id) else decide (a.id < b.id)

/-- Tie order of a file carrying `CREATE INDEX ... ON orders(price DESC)`: the mirror
image, asks of equal price come out in decreasing rowid order and bids of equal price in
rowid order. -/
def priceDescIndexTies : Order → Order → Bool :=
  fun a b => if a.type == "Sell" then decide (b.id < a.id) else decide (a.id < b.id)

/-- Largest rowid SQLite can assign (a signed 64-bit integer). -/
def maxRowid : Nat := 9223372036854775807

/-- Largest `id` present in the table (0 for an empty table). -/
def maxId : List Order → Nat
  | [] => 0
  | o :: rest => max o.id (maxId rest)

/-- The rowid AUTOINCREMENT picks for the next insert: one more than the largest rowid
that has ever been in the table. -/
def nextRowid (db : DatabaseManager) : Nat :=
  max db.seq (maxId db.orders) + 1

/-- The function `initializeDatabase`: `CREATE TABLE IF NOT EXISTS orders (...)`; rows
(and indexes) already in the file are kept. -/
def initializeDatabase (db : DatabaseManager) : DatabaseManager := db

/-- The constructor `DatabaseManager::DatabaseManager()`: opens `trading.db`; when the
open fails it only logs, otherwise it runs `initializeDatabase`. `opened` is the outcome
of `db.open()`, `file` the table found in the file; the file is an ordinary one written
by this program: statements execute on it and it has no index. -/
def DatabaseManager.create (opened : Bool) (file : List Order) (fileSeq : Nat) :
    DatabaseManager :=
  if opened then initializeDatabase ⟨true, file, fileSeq, true, true, rowidTies⟩
  else ⟨false, file, fileSeq, true, true, rowidTies⟩

/-- The function `DatabaseManager::addOrder(type, price, quantity)`: one
`INSERT INTO orders (type, price, quantity, status) VALUES (:type, :price, :quantity, 'Pending')`.
There is no check on the arguments. When `query.exec()` fails (connection not open,
statement refused by SQLite, or no rowid left) the function only logs and returns.
`now` is `CURRENT_TIMESTAMP`. -/
def addOrder (db : DatabaseManager) (type : String) (price : ℚ) (quantity : Int)
    (now : Nat) : DatabaseManager :=
  if db.isOpen = true ∧ db.canInsert = true ∧ nextRowid db ≤ maxRowid then
    { db with
      orders := db.orders ++ [⟨nextRowid db, type, price, quantity, "Pending", now⟩]
      seq := nextRowid db }
  else db

/-- The comparison of `ORDER BY price DESC` (`desc = true`) or `ORDER BY price ASC`:
does `a` sort strictly before `b`? -/
def sortsBefore (desc : Bool) (a b : Order) : Bool :=
  if desc then decide (b.price < a.price) else decide (a.price < b.price)

/-- Placement of one more row `r` in the sorted result: before the first entry that it
precedes, either by the sort key `price` or, at equal price, by the tie order
`tieFirst`, which the SQL text leaves to SQLite. -/
def sorterInsert (desc : Bool) (tieFirst : Order → Order → Bool) (r : Order) :
    List Order → List Order
  | [] => [r]
  | x :: rest =>
    if sortsBefore desc r x || (decide (r.price = x.price) && tieFirst r x) then
      r :: x :: rest
    else x :: sorterInsert desc tieFirst r rest

/-- The clause `ORDER BY price DESC|ASC` over the matching rows. -/
def orderByPrice (desc : Bool) (tieFirst : Order → Order → Bool) (rows : List Order) :
    List Order :=
  rows.foldl (fun acc r => sorterInsert desc tieFirst r acc) []

/-- The clause `LIMIT :limit` as SQLite evaluates it: a negative value means no upper
bound on the number of rows, otherwise at most `limit` rows are returned. -/
def sqlLimit {α : Type} (limit : Int) (rows : List α) : List α :=
  if limit < 0 then rows else rows.take limit.toNat

/-- The function `DatabaseManager::getTopBids(limit)`:
`SELECT price, quantity FROM orders WHERE type='Buy' AND status='Pending'
ORDER BY price DESC LIMIT :limit`; the vector stays empty when `query.exec()` fails. -/
def getTopBids (db : DatabaseManager) (limit : Int) : List (ℚ × Int) :=
  if db.isOpen && db.canSelect then
    (sqlLimit limit (orderByPrice true db.tieFirst
      (db.orders.filter (fun o => o.type == "Buy" && o.status == "Pending")))).map
      (fun o => (o.price, o.quantity))
  else []

/-- The function `DatabaseManager::getTopAsks(limit)`:
`SELECT price, quantity FROM orders WHERE type='Sell' AND status='Pending'
ORDER BY price ASC LIMIT :limit`; the vector stays empty when `query.exec()` fails. -/
def getTopAsks (db : DatabaseManager) (limit : Int) : List (ℚ × Int) :=
  if db.isOpen && db.canSelect then
    (sqlLimit limit (orderByPrice false db.tieFirst
      (db.orders.filter (fun o => o.type == "Sell" && o.status == "Pending")))).map
      (fun o => (o.price, o.quantity))
  else []

/-- The function `DatabaseManager::getCompletedOrders()`:
`SELECT price, quantity FROM orders WHERE status='Completed'`; `query.next()` yields
nothing when the query could not run. -/
def getCompletedOrders (db : DatabaseManager) : List (ℚ × Int) :=
  if db.isOpen && db.canSelect then
    (db.orders.filter (fun o => o.status == "Completed")).map
      (fun o => (o.price, o.quantity))
  else []

/-- A freshly created, available store: connection open, no rows. -/
def emptyStore : DatabaseManager := DatabaseManager.create true [] 0

/-- Rows of a table scan come in strictly increasing rowid order. -/
def RowidOrdered (db : DatabaseManager) : Prop :=
  db.orders.Pairwise (fun a b => a.id < b.id)

/-- Replays a list of `addOrder` calls `(type, price, quantity, now)`. -/
def addOrders (db : DatabaseManager) : List (String × ℚ × Int × Nat) → DatabaseManager
  | [] => db
  | (t, p, q, now) :: rest => addOrders (addOrder db t p q now) rest

/-! ## main.cpp -/

/-- The call `QString::number(x, 'f', 2)`: the text of `x` with two decimals, as the number of
hundredths it shows (a value halfway between two hundredths is taken upwards). -/
def numberF2 (x : ℚ) : Int := ⌊x * 100 + 1 / 2⌋

/-- The call `item->text().toDouble()` on a two-decimal price cell. -/
def cellToDouble (cell : Int) : ℚ := (cell : ℚ) / 100

/-- The loop of `generateRandomOrders`, its body iterated `remaining` times; `draws` is the
sequence of values returned by successive `rand()` calls and `pos` the number of calls
made so far. -/
def generateRandomOrdersFrom (isBid : Bool) (basePrice : ℚ) (draws : Nat → Int) :
    Nat → Nat → List (ℚ × Int)
  | 0, _ => []
  | remaining + 1, pos =>
    let priceVariation : ℚ := ((Int.tmod (draws pos) 50 : Int) : ℚ) / 100
    let price : ℚ := if isBid then basePrice - priceVariation else basePrice + priceVariation
    let quantity : Int := (Int.tmod (draws (pos + 1)) 10 + 1) * 10
    (price, quantity) :: generateRandomOrdersFrom isBid basePrice draws remaining (pos + 2)

/-- The function `generateRandomOrders(isBid, basePrice, count)`: `for (int i = 0; i < count; ++i)`
appends one (price, quantity) pair per iteration. -/
def generateRandomOrders (isBid : Bool) (basePrice : ℚ) (count : Int)
    (draws : Nat → Int) : List (ℚ × Int) :=
  generateRandomOrdersFrom isBid basePrice draws count.toNat 0

/-- A row of `bidTable` / `askTable` (columns "Price", "Quantity"). -/
structure BookRow where
  price : Int
  quantity : Int
  deriving DecidableEq

/-- A row of `ongoingTable` / `completedTable` (columns "Type", "Price", "Quantity",
"Time"). -/
structure HistoryRow where
  type : String
  price : Int
  quantity : Int
  time : String
  deriving DecidableEq

/-- The four tables of the window built in `main`. -/
structure Window where
  bidTable : List BookRow
  askTable : List BookRow
  ongoingTable : List HistoryRow
  completedTable : List HistoryRow
  deriving DecidableEq

/-- The function `populateOrderTable(table, data, isBid)`: the table is cleared and gets one row per
pair, the price written with two decimals (the colouring is not modelled). -/
def populateOrderTable (data : List (ℚ × Int)) : List BookRow :=
  data.map (fun d => ⟨numberF2 d.1, d.2⟩)

/-- The function `addHistoryEntry(historyTable, type, price, quantity)`: inserts a row after the last
one; `now` is `QDateTime::currentDateTime().toString("hh:mm:ss")`. -/
def addHistoryEntry (historyTable : List HistoryRow) (type : String) (price : ℚ)
    (quantity : Int) (now : String) : List HistoryRow :=
  historyTable ++ [⟨type, numberF2 price, quantity, now⟩]

/-- The function `moveOrderToCompleted(ongoingTable, completedTable, row)`: reads the four cells of
`row`, appends them as a new last row of the completed table and removes `row` from the
ongoing table. `item(row, 0)` is null when there is no such row, and dereferencing it
is the failure `none`. Returns the new (ongoing, completed) tables. -/
def moveOrderToCompleted (ongoingTable completedTable : List HistoryRow) (row : Int) :
    Option (List HistoryRow × List HistoryRow) :=
  if row < 0 then none
  else
    match ongoingTable[row.toNat]? with
    | none => none
    | some item =>
      let type := item.type
      let price := cellToDouble item.price
      let quantity := item.quantity
      let time := item.time
      some (ongoingTable.eraseIdx row.toNat,
        completedTable ++ [⟨type, numberF2 price, quantity, time⟩])

/-- The `buyButton` handler: with at least one ask row, the first row's price and
quantity go into a new "Market Buy" entry of the ongoing table and that first row is
removed from the ask table; with no ask row nothing happens. -/
def buyClicked (w : Window) (now : String) : Window :=
  match w.askTable with
  | [] => w
  | top :: _ =>
    let price := cellToDouble top.price
    let quantity := top.quantity
    { w with
      ongoingTable := addHistoryEntry w.ongoingTable "Market Buy" price quantity now
      askTable := w.askTable.eraseIdx 0 }

/-- The `sellButton` handler, the mirror image of `buyClicked` on the bid table. -/
def sellClicked (w : Window) (now : String) : Window :=
  match w.bidTable with
  | [] => w
  | top :: _ =>
    let price := cellToDouble top.price
    let quantity := top.quantity
    { w with
      ongoingTable := addHistoryEntry w.ongoingTable "Market Sell" price quantity now
      bidTable := w.bidTable.eraseIdx 0 }

/-- The `closeOrderButton` handler: `currentRow` is `ongoingTable->currentRow()`, which
is negative when no row is selected; then nothing happens. -/
def closeOrderClicked (w : Window) (currentRow : Int) : Option Window :=
  if currentRow ≥ 0 then
    match moveOrderToCompleted w.ongoingTable w.completedTable currentRow with
    | none => none
    | some (ongoing, completed) =>
      some { w with ongoingTable := ongoing, completedTable := completed }
  else some w

/-- The base price set in `main`. -/
def basePrice : ℚ := 100

/-- The timer handler: five fresh random bids and five fresh random asks replace the
contents of the two book tables. -/
def timerTimeout (w : Window) (draws : Nat → Int) : Window :=
  let bids := generateRandomOrders true basePrice 5 draws
  let asks := generateRandomOrders false basePrice 5 (fun k => draws (k + 10))
  { w with bidTable := populateOrderTable bids, askTable := populateOrderTable asks }

/-- The window right after `main` has built it: four empty tables. -/
def initialWindow : Window := ⟨[], [], [], []⟩

/-! ## Specification vocabulary -/

/-- The failures the specification names. -/
inductive EngineError where
  | InvalidOrderError
  | NotFoundError
  | AlreadyCompletedError
  | NoLiquidityError
  | StoreUnavailableError
  deriving DecidableEq

/-- What a click on `buyButton` hands back, in the terms of the specification's
`execute_market_order(Buy) -> ExecutedTrade | NoLiquidityError`: the handler is a `void`
lambda whose only branch is the `if` without `else`, so every click returns normally,
with the window it leaves behind. -/
def executeMarketBuy (w : Window) (now : String) : Except EngineError Window :=
  Except.ok (buyClicked w now)

/-- What a click on `closeOrderButton` hands back, in the terms of the specification's
`close_order -> Ok | NotFoundError | AlreadyCompletedError`: the handler is a `void`
lambda with no failure path; `none` is the crash on a missing table item. -/
def closeOrder (w : Window) (currentRow : Int) : Option (Except EngineError Window) :=
  (closeOrderClicked w currentRow).map Except.ok

/-! ## Scenarios -/

/-- The store after `addOrder("Buy", 99.50, 10)` then `addOrder("Buy", 99.80, 20)` on
an empty store. -/
def bidScenario : DatabaseManager :=
  addOrder (addOrder emptyStore "Buy" 99.5 10 0) "Buy" 99.8 20 1

/-- The store after `addOrder("Sell", 100.10, 15)` then `addOrder("Sell", 100.05, 5)` on
an empty store. -/
def askScenario : DatabaseManager :=
  addOrder (addOrder emptyStore "Sell" 100.1 15 0) "Sell" 100.05 5 1

/-- The store opened on an empty `trading.db` that carries an index on `price`, which
`CREATE TABLE IF NOT EXISTS` leaves in place, after `addOrder` of Buy (100, 1), (101, 2),
(100, 3), (101, 4). -/
def bidIndexStore : DatabaseManager :=
  addOrder (addOrder (addOrder (addOrder ⟨true, [], 0, true, true, priceIndexTies⟩
    "Buy" 100 1 0) "Buy" 101 2 1) "Buy" 100 3 2) "Buy" 101 4 3

/-- The store opened on an empty `trading.db` that carries an index on `price DESC`,
after `addOrder` of Sell (5, 1) then Sell (5, 2). -/
def askIndexStore : DatabaseManager :=
  addOrder (addOrder ⟨true, [], 0, true, true, priceDescIndexTies⟩ "Sell" 5 1 0)
    "Sell" 5 2 1

/-- A store whose file holds one pending bid and one completed ask but whose connection
could not be opened. -/
def unavailableStore : DatabaseManager :=
  DatabaseManager.create false
    [⟨1, "Buy", 99.5, 10, "Pending", 0⟩, ⟨2, "Sell", 100.05, 5, "Completed", 1⟩] 2

/-- Two valid `addOrder` calls: Buy (99.50, 10) then Sell (100.10, 15). -/
def twoCalls : List (String × ℚ × Int × Nat) :=
  [("Buy", 99.5, 10, 0), ("Sell", 100.1, 15, 1)]

/-- A sequence of `rand()` results: 3, 10, 17, 24, ... -/
def sampleDraws : Nat → Int := fun k => 7 * (k : Int) + 3

/-- The window after the first timer tick on the draws 3, 10, 17, ...: bids 99.97, 99.83,
99.69, 99.55, 99.91 and asks 100.23, 100.37, 100.01, 100.15, 100.29. -/
def refreshedWindow : Window := timerTimeout initialWindow sampleDraws

/-- The window after one market buy at 10:00:00 against `refreshedWindow`: one ongoing
entry. -/
def oneBuyWindow : Window := buyClicked refreshedWindow "10:00:00"

/-- The window after two market buys against `refreshedWindow`. -/
def twoBuysWindow : Window := buyClicked oneBuyWindow "10:00:01"

/-- The window after five market buys against `refreshedWindow`: bids and ongoing entries
but no ask row left. -/
def noAsksWindow : Window :=
  (fun w => buyClicked w "10:00:00")^[5] refreshedWindow

/-! ## Sorting lemmas -/

theorem sorterInsert_perm (desc : Bool) (tie : Order → Order → Bool) (r : Order)
    (l : List Order) : (sorterInsert desc tie r l).Perm (r :: l) := by
  induction l with
  | nil => exact List.Perm.refl _
  | cons x rest ih =>
    unfold sorterInsert
    split
    · exact List.Perm.refl _
    · exact (List.Perm.cons x ih).trans (List.Perm.swap r x rest)

theorem foldl_sorterInsert_perm (desc : Bool) (tie : Order → Order → Bool)
    (rows acc : List Order) :
    (rows.foldl (fun acc r => sorterInsert desc tie r acc) acc).Perm (acc ++ rows) := by
  induction rows generalizing acc with
  | nil => simp
  | cons r rest ih =>
    simp only [List.foldl_cons]
    refine (ih _).trans ?_
    refine ((sorterInsert_perm desc tie r acc).append_right rest).trans ?_
    exact List.perm_middle.symm

theorem orderByPrice_perm (desc : Bool) (tie : Order → Order → Bool) (rows : List Order) :
    (orderByPrice desc tie rows).Perm rows := by
  simpa [orderByPrice] using foldl_sorterInsert_perm desc tie rows []

theorem sorterInsert_pairwise (desc : Bool) (tie : Order → Order → Bool) (r : Order)
    (l : List Order) (hs : l.Pairwise (fun a b => sortsBefore desc b a = false)) :
    (sorterInsert desc tie r l).Pairwise (fun a b => sortsBefore desc b a = false) := by
  induction l with
  | nil => simp [sorterInsert]
  | cons x rest ih =>
    rw [List.pairwise_cons] at hs
    unfold sorterInsert
    split
    · rename_i hrx
      refine List.Pairwise.cons ?_ (List.Pairwise.cons hs.1 hs.2)
      have hrx2 : sortsBefore desc x r = false := by
        cases desc <;> simp only [sortsBefore, if_true, if_false, Bool.false_eq_true,
          Bool.or_eq_true, Bool.and_eq_true, decide_eq_true_eq, decide_eq_false_iff_not,
          not_lt] at * <;> rcases hrx with h | ⟨h, _⟩ <;> linarith
      intro y hy
      rcases List.mem_cons.1 hy with rfl | hy
      · exact hrx2
      · have hxy := hs.1 y hy
        cases desc <;> simp only [sortsBefore, if_true, if_false, Bool.false_eq_true,
          decide_eq_false_iff_not, not_lt] at * <;> linarith
    · rename_i hrx
      refine List.Pairwise.cons ?_ (ih hs.2)
      intro z hz
      rcases List.mem_cons.1 ((sorterInsert_perm desc tie r rest).subset hz) with rfl | hz
      · simp only [Bool.or_eq_true, not_or, Bool.not_eq_true] at hrx
        exact hrx.1
      · exact hs.1 z hz

theorem orderByPrice_pairwise (desc : Bool) (tie : Order → Order → Bool)
    (rows : List Order) :
    (orderByPrice desc tie rows).Pairwise (fun a b => sortsBefore desc b a = false) := by
  unfold orderByPrice
  suffices h : ∀ acc : List Order, acc.Pairwise (fun a b => sortsBefore desc b a = false) →
      (rows.foldl (fun acc r => sorterInsert desc tie r acc) acc).Pairwise
        (fun a b => sortsBefore desc b a = false) from h [] List.Pairwise.nil
  induction rows with
  | nil => intro acc hacc; simpa using hacc
  | cons r rest ih =>
    intro acc hacc
    simp only [List.foldl_cons]
    exact ih _ (sorterInsert_pairwise desc tie r acc hacc)

/-! ## Ledger store: sorted queries -/

/-- C1 (amended). On a store whose connection is open and on which the SELECT executes,
`getTopBids limit` is the list of (price, quantity) pairs of a ranking `ranked` of exactly
the rows with type Buy and status Pending, sorted by price descending (no order among
rows of equal price is stated); for `0 ≤ limit` it is truncated to the first `limit` rows
(so empty for `limit = 0`), and for `limit < 0` it is not truncated at all. -/
theorem getTopBids_ranked (db : DatabaseManager) (limit : Int)
    (hopen : db.isOpen = true) (hselect : db.canSelect = true) :
    ∃ ranked : List Order,
      ranked.Perm (db.orders.filter (fun o => o.type = "Buy" ∧ o.status = "Pending")) ∧
      ranked.Pairwise (fun a b => b.price ≤ a.price) ∧
      (0 ≤ limit → getTopBids db limit =
        (ranked.take limit.toNat).map (fun o => (o.price, o.quantity))) ∧
      (limit < 0 → getTopBids db limit = ranked.map (fun o => (o.price, o.quantity))) := by
  refine ⟨orderByPrice true db.tieFirst
    (db.orders.filter (fun o => o.type == "Buy" && o.status == "Pending")), ?_, ?_, ?_, ?_⟩
  · refine (orderByPrice_perm true _ _).trans ?_
    apply List.Perm.of_eq
    apply List.filter_congr
    intro o _
    rw [Bool.decide_and]
    rfl
  · refine (orderByPrice_pairwise true db.tieFirst _).imp ?_
    intro a b hab
    simpa [sortsBefore] using hab
  · intro hl
    simp [getTopBids, hopen, hselect, sqlLimit, not_lt.2 hl]
  · intro hl
    simp [getTopBids, hopen, hselect, sqlLimit, hl]

/-- C2 (amended). On a store whose connection is open and on which the SELECT executes,
`getTopAsks limit` is the list of (price, quantity) pairs of a ranking `ranked` of exactly
the rows with type Sell and status Pending, sorted by price ascending (no order among
rows of equal price is stated); for `0 ≤ limit` it is truncated to the first `limit`
rows, and for `limit < 0` it is not truncated at all. -/
theorem getTopAsks_ranked (db : DatabaseManager) (limit : Int)
    (hopen : db.isOpen = true) (hselect : db.canSelect = true) :
    ∃ ranked : List Order,
      ranked.Perm (db.orders.filter (fun o => o.type = "Sell" ∧ o.status = "Pending")) ∧
      ranked.Pairwise (fun a b => a.price ≤ b.price) ∧
      (0 ≤ limit → getTopAsks db limit =
        (ranked.take limit.toNat).map (fun o => (o.price, o.quantity))) ∧
      (limit < 0 → getTopAsks db limit = ranked.map (fun o => (o.price, o.quantity))) := by
  refine ⟨orderByPrice false db.tieFirst
    (db.orders.filter (fun o => o.type == "Sell" && o.status == "Pending")), ?_, ?_, ?_, ?_⟩
  · refine (orderByPrice_perm false _ _).trans ?_
    apply List.Perm.of_eq
    apply List.filter_congr
    intro o _
    rw [Bool.decide_and]
    rfl
  · refine (orderByPrice_pairwise false db.tieFirst _).imp ?_
    intro a b hab
    simpa [sortsBefore] using hab
  · intro hl
    simp [getTopAsks, hopen, hselect, sqlLimit, not_lt.2 hl]
  · intro hl
    simp [getTopAsks, hopen, hselect, sqlLimit, hl]

/-- C1, the claim as stated fails twice. For a negative limit: after creating Buy
(99.50, 10) then Buy (99.80, 20), `getTopBids (-1)` is not the empty sequence but both
bids. For equal prices: on a file that carries an index on `price`, after creating Buy
(100, 1), (101, 2), (100, 3), (101, 4), `getTopBids 1` is the later bid (101, 4), not
the earliest created bid at 101, which is (101, 2). -/
theorem getTopBids_limit_and_ties_fail :
    getTopBids bidScenario (-1) = [(99.8, 20), (99.5, 10)] ∧
      getTopBids bidScenario (-1) ≠ [] ∧
      bidIndexStore.orders.map (fun o => (o.id, o.price, o.quantity)) =
        [(1, 100, 1), (2, 101, 2), (3, 100, 3), (4, 101, 4)] ∧
      getTopBids bidIndexStore 1 = [(101, 4)] ∧
      getTopBids bidIndexStore 1 ≠ [(101, 2)] ∧
      getTopBids bidIndexStore 4 = [(101, 4), (101, 2), (100, 3), (100, 1)] := by
  have h : getTopBids bidScenario (-1) = [(99.8, 20), (99.5, 10)] := by
    norm_num [getTopBids, bidScenario, addOrder, emptyStore, DatabaseManager.create,
      initializeDatabase, nextRowid, maxId, maxRowid, orderByPrice, sorterInsert,
      sortsBefore, sqlLimit, rowidTies]
  have h1 : getTopBids bidIndexStore 1 = [(101, 4)] := by
    norm_num [getTopBids, bidIndexStore, addOrder, nextRowid, maxId,
      maxRowid, orderByPrice, sorterInsert, sortsBefore, sqlLimit, priceIndexTies, priceDescIndexTies]
  refine ⟨h, by rw [h]; exact List.cons_ne_nil _ _, ?_, h1, ?_, ?_⟩
  · norm_num [bidIndexStore, addOrder, nextRowid, maxId, maxRowid]
  · rw [h1]
    norm_num
  · norm_num [getTopBids, bidIndexStore, addOrder, nextRowid, maxId,
      maxRowid, orderByPrice, sorterInsert, sortsBefore, sqlLimit, priceIndexTies, priceDescIndexTies]

/-- C2, the claim as stated fails twice. For a negative limit: after creating Sell
(100.10, 15) then Sell (100.05, 5), `getTopAsks (-1)` is both asks, not the sorted asks
truncated to their first `-1` entries (which is no entry at all). For equal prices: on a
file that carries an index on `price DESC`, after creating Sell (5, 1) then Sell (5, 2),
`getTopAsks 1` is the later ask (5, 2), not the earliest created one, (5, 1). -/
theorem getTopAsks_limit_and_ties_fail :
    getTopAsks askScenario (-1) = [(100.05, 5), (100.1, 15)] ∧
      getTopAsks askScenario (-1) ≠
        List.take (Int.toNat (-1)) [((100.05 : ℚ), (5 : Int)), (100.1, 15)] ∧
      askIndexStore.orders.map (fun o => (o.id, o.price, o.quantity)) =
        [(1, 5, 1), (2, 5, 2)] ∧
      getTopAsks askIndexStore 1 = [(5, 2)] ∧
      getTopAsks askIndexStore 1 ≠ [(5, 1)] ∧
      getTopAsks askIndexStore 5 = [(5, 2), (5, 1)] := by
  have h : getTopAsks askScenario (-1) = [(100.05, 5), (100.1, 15)] := by
    norm_num [getTopAsks, askScenario, addOrder, emptyStore, DatabaseManager.create,
      initializeDatabase, nextRowid, maxId, maxRowid, orderByPrice, sorterInsert,
      sortsBefore, sqlLimit, rowidTies]
  have h1 : getTopAsks askIndexStore 1 = [(5, 2)] := by
    norm_num [getTopAsks, askIndexStore, addOrder, nextRowid, maxId,
      maxRowid, orderByPrice, sorterInsert, sortsBefore, sqlLimit, priceIndexTies, priceDescIndexTies]
  refine ⟨h, by rw [h]; exact List.cons_ne_nil _ _, ?_, h1, ?_, ?_⟩
  · norm_num [askIndexStore, addOrder, nextRowid, maxId, maxRowid]
  · rw [h1]
    norm_num
  · norm_num [getTopAsks, askIndexStore, addOrder, nextRowid, maxId,
      maxRowid, orderByPrice, sorterInsert, sortsBefore, sqlLimit, priceIndexTies, priceDescIndexTies]

/-- C1 witness: the store after Buy (99.50, 10) then Buy (99.80, 20) is open and answers
the SELECT, the ranking theorem applies to it with limit 1, and
`getTopBids 1 = [(99.80, 20)]`. -/
theorem getTopBids_ranked_witness :
    bidScenario.isOpen = true ∧ bidScenario.canSelect = true ∧
    (∃ ranked : List Order,
      ranked.Perm
        (bidScenario.orders.filter (fun o => o.type = "Buy" ∧ o.status = "Pending")) ∧
      ranked.Pairwise (fun a b => b.price ≤ a.price) ∧
      ((0 : Int) ≤ 1 → getTopBids bidScenario 1 =
        (ranked.take (1 : Int).toNat).map (fun o => (o.price, o.quantity))) ∧
      ((1 : Int) < 0 → getTopBids bidScenario 1 =
        ranked.map (fun o => (o.price, o.quantity)))) ∧
    getTopBids bidScenario 1 = [(99.8, 20)] :=
  ⟨rfl, rfl, getTopBids_ranked bidScenario 1 rfl rfl,
    by norm_num [getTopBids, bidScenario, addOrder, emptyStore, DatabaseManager.create,
      initializeDatabase, nextRowid, maxId, maxRowid, orderByPrice, sorterInsert,
      sortsBefore, sqlLimit, rowidTies]⟩

/-- C2 witness: the store after Sell (100.10, 15) then Sell (100.05, 5) is open and
answers the SELECT, the ranking theorem applies to it with limit 1, and
`getTopAsks 1 = [(100.05, 5)]`. -/
theorem getTopAsks_ranked_witness :
    askScenario.isOpen = true ∧ askScenario.canSelect = true ∧
    (∃ ranked : List Order,
      ranked.Perm
        (askScenario.orders.filter (fun o => o.type = "Sell" ∧ o.status = "Pending")) ∧
      ranked.Pairwise (fun a b => a.price ≤ b.price) ∧
      ((0 : Int) ≤ 1 → getTopAsks askScenario 1 =
        (ranked.take (1 : Int).toNat).map (fun o => (o.price, o.quantity))) ∧
      ((1 : Int) < 0 → getTopAsks askScenario 1 =
        ranked.map (fun o => (o.price, o.quantity)))) ∧
    getTopAsks askScenario 1 = [(100.05, 5)] :=
  ⟨rfl, rfl, getTopAsks_ranked askScenario 1 rfl rfl,
    by norm_num [getTopAsks, askScenario, addOrder, emptyStore, DatabaseManager.create,
      initializeDatabase, nextRowid, maxId, maxRowid, orderByPrice, sorterInsert,
      sortsBefore, sqlLimit, rowidTies]⟩

/-! ## Ledger store: inserts and availability -/

theorem le_maxId {l : List Order} {o : Order} (h : o ∈ l) : o.id ≤ maxId l := by
  induction l with
  | nil => cases h
  | cons x rest ih =>
    rcases List.mem_cons.1 h with rfl | h
    · exact le_max_left _ _
    · exact le_trans (ih h) (le_max_right _ _)

theorem maxId_append_singleton (l : List Order) (o : Order) :
    maxId (l ++ [o]) = max (maxId l) o.id := by
  induction l with
  | nil => simp [maxId]
  | cons x rest ih =>
    show max x.id (maxId (rest ++ [o])) = max (max x.id (maxId rest)) o.id
    rw [ih, Nat.max_assoc]

theorem lt_nextRowid {db : DatabaseManager} {o : Order} (h : o ∈ db.orders) :
    o.id < nextRowid db :=
  Nat.lt_succ_of_le (le_trans (le_maxId h) (le_max_right _ _))

theorem addOrder_orders (db : DatabaseManager) (type : String) (price : ℚ) (quantity : Int)
    (now : Nat) :
    (addOrder db type price quantity now).orders = db.orders ∨
    (addOrder db type price quantity now).orders =
      db.orders ++ [⟨nextRowid db, type, price, quantity, "Pending", now⟩] := by
  unfold addOrder
  split
  · exact Or.inr rfl
  · exact Or.inl rfl

theorem addOrder_rowidOrdered (db : DatabaseManager) (type : String) (price : ℚ)
    (quantity : Int) (now : Nat) (h : RowidOrdered db) :
    RowidOrdered (addOrder db type price quantity now) := by
  unfold RowidOrdered at *
  rcases addOrder_orders db type price quantity now with h' | h'
  · rw [h']; exact h
  · rw [h', List.pairwise_append]
    refine ⟨h, List.pairwise_singleton _ _, ?_⟩
    intro a ha b hb
    rw [List.mem_singleton] at hb
    subst hb
    exact lt_nextRowid ha

theorem addOrder_allPending (db : DatabaseManager) (type : String) (price : ℚ)
    (quantity : Int) (now : Nat) (h : ∀ o ∈ db.orders, o.status = "Pending") :
    ∀ o ∈ (addOrder db type price quantity now).orders, o.status = "Pending" := by
  rcases addOrder_orders db type price quantity now with h' | h'
  · rw [h']; exact h
  · rw [h']
    intro o ho
    rcases List.mem_append.1 ho with ho | ho
    · exact h o ho
    · rw [List.mem_singleton] at ho
      subst ho
      rfl

theorem addOrder_keeps_rows (db : DatabaseManager) (type : String) (price : ℚ)
    (quantity : Int) (now : Nat) :
    db.orders <+: (addOrder db type price quantity now).orders := by
  rcases addOrder_orders db type price quantity now with h' | h'
  · rw [h']
  · rw [h']; exact List.prefix_append _ _

theorem addOrders_invariant (calls : List (String × ℚ × Int × Nat)) (db : DatabaseManager)
    (hord : RowidOrdered db) (hpend : ∀ o ∈ db.orders, o.status = "Pending") :
    RowidOrdered (addOrders db calls) ∧
      (∀ o ∈ (addOrders db calls).orders, o.status = "Pending") ∧
      db.orders <+: (addOrders db calls).orders := by
  induction calls generalizing db with
  | nil => exact ⟨hord, hpend, List.prefix_refl _⟩
  | cons c rest ih =>
    obtain ⟨t, p, q, now⟩ := c
    have h := ih (addOrder db t p q now) (addOrder_rowidOrdered db t p q now hord)
      (addOrder_allPending db t p q now hpend)
    exact ⟨h.1, h.2.1, (addOrder_keeps_rows db t p q now).trans h.2.2⟩

theorem addOrders_append (pre post : List (String × ℚ × Int × Nat)) (db : DatabaseManager) :
    addOrders db (pre ++ post) = addOrders (addOrders db pre) post := by
  induction pre generalizing db with
  | nil => rfl
  | cons c rest ih =>
    obtain ⟨t, p, q, now⟩ := c
    simp only [List.cons_append, addOrders]
    exact ih _

theorem addOrders_exact (calls : List (String × ℚ × Int × Nat)) (db : DatabaseManager)
    (hopen : db.isOpen = true) (hinsert : db.canInsert = true)
    (hseq : maxId db.orders ≤ db.seq) (hfit : db.seq + calls.length ≤ maxRowid) :
    (addOrders db calls).orders.map (fun o => (o.type, o.price, o.quantity, o.timestamp)) =
        db.orders.map (fun o => (o.type, o.price, o.quantity, o.timestamp)) ++ calls ∧
      (addOrders db calls).orders.map Order.id =
        db.orders.map Order.id ++ List.range' (db.seq + 1) calls.length := by
  induction calls generalizing db with
  | nil => simp [addOrders]
  | cons c rest ih =>
    obtain ⟨t, p, q, now⟩ := c
    simp only [List.length_cons] at hfit
    have hnext : nextRowid db = db.seq + 1 := by
      unfold nextRowid
      rw [max_eq_left hseq]
    have hstep : addOrder db t p q now =
        { db with
          orders := db.orders ++ [⟨db.seq + 1, t, p, q, "Pending", now⟩]
          seq := db.seq + 1 } := by
      unfold addOrder
      rw [hnext, if_pos ⟨hopen, hinsert, by omega⟩]
    have hmax : maxId (db.orders ++ [⟨db.seq + 1, t, p, q, "Pending", now⟩]) ≤ db.seq + 1 := by
      rw [maxId_append_singleton]
      exact max_le (le_trans hseq (Nat.le_succ _)) (le_refl _)
    have h := ih (addOrder db t p q now) (by rw [hstep]; exact hopen)
      (by rw [hstep]; exact hinsert) (by rw [hstep]; exact hmax)
      (by rw [hstep]; simp only; omega)
    simp only [addOrders]
    rw [h.1, h.2, hstep]
    simp [List.range'_succ]

/-- C8. Starting from the empty store, after any finite sequence of `addOrder` calls
(valid or not) the ids of the stored orders are pairwise distinct, every stored order has
status Pending, and the rows stored after any initial part of the sequence are still
there, unchanged and in place, after the whole sequence; as long as rowids are left, the
stored orders are exactly the created ones, with ids 1, 2, ..., one per call. -/
theorem addOrders_ids_distinct_pending (calls : List (String × ℚ × Int × Nat)) :
    ((addOrders emptyStore calls).orders.map Order.id).Nodup ∧
      (∀ o ∈ (addOrders emptyStore calls).orders, o.status = "Pending") ∧
      (∀ pre post, calls = pre ++ post →
        (addOrders emptyStore pre).orders <+: (addOrders emptyStore calls).orders) ∧
      (calls.length ≤ maxRowid →
        (addOrders emptyStore calls).orders.map
            (fun o => (o.type, o.price, o.quantity, o.timestamp)) = calls ∧
          (addOrders emptyStore calls).orders.map Order.id = List.range' 1 calls.length) := by
  have hord0 : RowidOrdered emptyStore := List.Pairwise.nil
  have hpend0 : ∀ o ∈ emptyStore.orders, o.status = "Pending" := fun o ho => by cases ho
  have hinv := addOrders_invariant calls emptyStore hord0 hpend0
  refine ⟨?_, hinv.2.1, ?_, ?_⟩
  · have h := hinv.1
    unfold RowidOrdered at h
    unfold List.Nodup
    rw [List.pairwise_map]
    exact h.imp (fun hab => Nat.ne_of_lt hab)
  · intro pre post hcalls
    subst hcalls
    rw [addOrders_append]
    have hpre := addOrders_invariant pre emptyStore hord0 hpend0
    exact (addOrders_invariant post _ hpre.1 hpre.2.1).2.2
  · intro hfit
    have h := addOrders_exact calls emptyStore rfl rfl (le_refl _)
      (by show 0 + calls.length ≤ maxRowid; omega)
    simpa [emptyStore, DatabaseManager.create, initializeDatabase] using h

/-- C8 witness: for Buy (99.50, 10) then Sell (100.10, 15) the stored ids are 1 and 2,
distinct, both rows Pending and carrying the submitted values. -/
theorem addOrders_ids_distinct_pending_witness :
    twoCalls.length ≤ maxRowid ∧
      ((addOrders emptyStore twoCalls).orders.map Order.id).Nodup ∧
      (∀ o ∈ (addOrders emptyStore twoCalls).orders, o.status = "Pending") ∧
      (addOrders emptyStore twoCalls).orders.map
          (fun o => (o.type, o.price, o.quantity, o.timestamp)) = twoCalls ∧
      (addOrders emptyStore twoCalls).orders.map Order.id = List.range' 1 twoCalls.length :=
  ⟨by decide, (addOrders_ids_distinct_pending twoCalls).1,
    (addOrders_ids_distinct_pending twoCalls).2.1,
    (addOrders_ids_distinct_pending twoCalls).2.2.2 (by decide)⟩

/-- C3, the claim as stated fails: `addOrder("Buy", 0, 10)` and `addOrder("Sell", 5, 0)`
on the empty store are not rejected, each persists a new Pending row. -/
theorem addOrder_accepts_nonpositive :
    (addOrder emptyStore "Buy" 0 10 0).orders = [⟨1, "Buy", 0, 10, "Pending", 0⟩] ∧
      (addOrder emptyStore "Sell" 5 0 0).orders = [⟨1, "Sell", 5, 0, "Pending", 0⟩] ∧
      (addOrder emptyStore "Buy" 0 10 0).orders ≠ emptyStore.orders := by
  refine ⟨by rfl, by rfl, ?_⟩
  have h : (addOrder emptyStore "Buy" 0 10 0).orders = [⟨1, "Buy", 0, 10, "Pending", 0⟩] := rfl
  rw [h]
  exact List.cons_ne_nil _ _

/-- C3 (amended). For every side, price `p` and quantity `q` with `p ≤ 0` or `q ≤ 0`,
`addOrder` does not reject the order for its values: whenever its INSERT executes
(connection open, statement accepted by SQLite, a rowid left) it persists exactly one new
row, with status Pending and carrying `p` and `q`, after the rows already stored, which
are unchanged; so the stored orders change, and they then include an order whose price
or quantity is not positive. -/
theorem addOrder_persists_nonpositive (db : DatabaseManager) (type : String) (p : ℚ)
    (q : Int) (now : Nat) (hbad : p ≤ 0 ∨ q ≤ 0) (hopen : db.isOpen = true)
    (hinsert : db.canInsert = true) (hroom : nextRowid db ≤ maxRowid) :
    (addOrder db type p q now).orders =
        db.orders ++ [⟨nextRowid db, type, p, q, "Pending", now⟩] ∧
      (addOrder db type p q now).orders ≠ db.orders ∧
      ¬ (∀ o ∈ (addOrder db type p q now).orders, 0 < o.price ∧ 0 < o.quantity) := by
  have h : (addOrder db type p q now).orders =
      db.orders ++ [⟨nextRowid db, type, p, q, "Pending", now⟩] := by
    unfold addOrder
    rw [if_pos ⟨hopen, hinsert, hroom⟩]
  refine ⟨h, ?_, ?_⟩
  · rw [h]
    intro heq
    have hlen := congrArg List.length heq
    simp at hlen
  · rw [h]
    intro hall
    have hnew := hall ⟨nextRowid db, type, p, q, "Pending", now⟩ (by simp)
    rcases hbad with hp | hq
    · exact absurd hnew.1 (not_lt.2 hp)
    · exact absurd hnew.2 (not_lt.2 hq)

/-- C3 witness: a Sell at price -1 with quantity 0 added to the store holding two asks. -/
theorem addOrder_persists_nonpositive_witness :
    ((-1 : ℚ) ≤ 0 ∨ (0 : Int) ≤ 0) ∧ askScenario.isOpen = true ∧
      askScenario.canInsert = true ∧ nextRowid askScenario ≤ maxRowid ∧
      (addOrder askScenario "Sell" (-1) 0 2).orders =
        askScenario.orders ++ [⟨nextRowid askScenario, "Sell", -1, 0, "Pending", 2⟩] ∧
      (addOrder askScenario "Sell" (-1) 0 2).orders ≠ askScenario.orders :=
  ⟨Or.inr (le_refl _), rfl, rfl, by decide,
    (addOrder_persists_nonpositive askScenario "Sell" (-1) 0 2 (Or.inr (le_refl _)) rfl rfl
      (by decide)).1,
    (addOrder_persists_nonpositive askScenario "Sell" (-1) 0 2 (Or.inr (le_refl _)) rfl rfl
      (by decide)).2.1⟩

/-- C10, the claim as stated fails: on a store that could not be opened, whose file holds
a pending bid and a completed order, the three queries return the empty sequence and
`addOrder` returns normally, leaving the store as it was. -/
theorem unavailable_store_returns_empty :
    unavailableStore.isOpen = false ∧
      getTopBids unavailableStore 5 = [] ∧
      getTopAsks unavailableStore 5 = [] ∧
      getCompletedOrders unavailableStore = [] ∧
      (addOrder unavailableStore "Buy" 99.5 10 2).orders = unavailableStore.orders :=
  ⟨rfl, rfl, rfl, rfl, rfl⟩

/-- C10 (amended). When the store is unavailable (the database could not be opened), no
operation signals an error to its caller: `addOrder` returns with the store unchanged,
and `getTopBids`, `getTopAsks` and `getCompletedOrders` each return the empty
sequence. -/
theorem unavailable_store_silent (db : DatabaseManager) (hclosed : db.isOpen = false)
    (type : String) (p : ℚ) (q : Int) (now : Nat) (limit : Int) :
    addOrder db type p q now = db ∧
      getTopBids db limit = [] ∧
      getTopAsks db limit = [] ∧
      getCompletedOrders db = [] := by
  refine ⟨?_, ?_, ?_, ?_⟩
  · unfold addOrder
    rw [if_neg]
    rw [hclosed]
    simp
  · simp [getTopBids, hclosed]
  · simp [getTopAsks, hclosed]
  · simp [getCompletedOrders, hclosed]

/-- C10 witness: the unavailable store holding a pending bid and a completed order. -/
theorem unavailable_store_silent_witness :
    unavailableStore.isOpen = false ∧
      addOrder unavailableStore "Buy" 99.5 10 2 = unavailableStore ∧
      getTopBids unavailableStore 1 = [] ∧
      getTopAsks unavailableStore 1 = [] ∧
      getCompletedOrders unavailableStore = [] :=
  ⟨rfl, unavailable_store_silent unavailableStore rfl "Buy" 99.5 10 2 1⟩
/-! ## Order-book handlers -/

theorem numberF2_cellToDouble (cell : Int) : numberF2 (cellToDouble cell) = cell := by
  unfold numberF2 cellToDouble
  have h : (cell : ℚ) / 100 * 100 + 1 / 2 = (cell : ℚ) + 1 / 2 := by ring
  rw [h, Int.floor_int_add]
  have h2 : ⌊(1 / 2 : ℚ)⌋ = 0 := by
    rw [Int.floor_eq_iff]
    norm_num
  rw [h2, add_zero]

theorem perm_cons_eraseIdx {α : Type} (l : List α) (i : Nat) (x : α)
    (h : l[i]? = some x) : l.Perm (x :: l.eraseIdx i) := by
  induction l generalizing i with
  | nil => simp at h
  | cons y rest ih =>
    cases i with
    | zero =>
      simp only [List.getElem?_cons_zero, Option.some.injEq] at h
      subst h
      exact List.Perm.refl _
    | succ j =>
      simp only [List.getElem?_cons_succ] at h
      simp only [List.eraseIdx_cons_succ]
      exact (List.Perm.cons y (ih j h)).trans (List.Perm.swap x y _)

theorem length_eraseIdx_add_one {α : Type} (l : List α) (i : Nat) (x : α)
    (h : l[i]? = some x) : (l.eraseIdx i).length + 1 = l.length := by
  have hp := (perm_cons_eraseIdx l i x h).length_eq
  simp only [List.length_cons] at hp
  exact hp.symm

theorem moveOrderToCompleted_eq (ongoing completed : List HistoryRow) (row : Int)
    (item : HistoryRow) (hsel : 0 ≤ row) (hrow : ongoing[row.toNat]? = some item) :
    moveOrderToCompleted ongoing completed row =
      some (ongoing.eraseIdx row.toNat, completed ++ [item]) := by
  unfold moveOrderToCompleted
  rw [if_neg (not_lt.2 hsel), hrow]
  simp only [numberF2_cellToDouble]

theorem refreshedWindow_eq :
    refreshedWindow =
      ⟨[⟨9997, 10⟩, ⟨9983, 50⟩, ⟨9969, 90⟩, ⟨9955, 30⟩, ⟨9991, 70⟩],
        [⟨10023, 10⟩, ⟨10037, 50⟩, ⟨10001, 90⟩, ⟨10015, 30⟩, ⟨10029, 70⟩], [], []⟩ := by
  norm_num [refreshedWindow, sampleDraws, initialWindow, timerTimeout, populateOrderTable,
    generateRandomOrders, generateRandomOrdersFrom, numberF2, basePrice, Int.tmod]

theorem oneBuyWindow_eq :
    oneBuyWindow =
      ⟨[⟨9997, 10⟩, ⟨9983, 50⟩, ⟨9969, 90⟩, ⟨9955, 30⟩, ⟨9991, 70⟩],
        [⟨10037, 50⟩, ⟨10001, 90⟩, ⟨10015, 30⟩, ⟨10029, 70⟩],
        [⟨"Market Buy", 10023, 10, "10:00:00"⟩], []⟩ := by
  unfold oneBuyWindow
  rw [refreshedWindow_eq]
  simp [buyClicked, addHistoryEntry, numberF2_cellToDouble]

theorem twoBuysWindow_eq :
    twoBuysWindow =
      ⟨[⟨9997, 10⟩, ⟨9983, 50⟩, ⟨9969, 90⟩, ⟨9955, 30⟩, ⟨9991, 70⟩],
        [⟨10001, 90⟩, ⟨10015, 30⟩, ⟨10029, 70⟩],
        [⟨"Market Buy", 10023, 10, "10:00:00"⟩, ⟨"Market Buy", 10037, 50, "10:00:01"⟩],
        []⟩ := by
  unfold twoBuysWindow
  rw [oneBuyWindow_eq]
  simp [buyClicked, addHistoryEntry, numberF2_cellToDouble]

theorem noAsksWindow_eq :
    noAsksWindow =
      ⟨[⟨9997, 10⟩, ⟨9983, 50⟩, ⟨9969, 90⟩, ⟨9955, 30⟩, ⟨9991, 70⟩], [],
        [⟨"Market Buy", 10023, 10, "10:00:00"⟩, ⟨"Market Buy", 10037, 50, "10:00:00"⟩,
          ⟨"Market Buy", 10001, 90, "10:00:00"⟩, ⟨"Market Buy", 10015, 30, "10:00:00"⟩,
          ⟨"Market Buy", 10029, 70, "10:00:00"⟩], []⟩ := by
  unfold noAsksWindow
  rw [refreshedWindow_eq]
  simp [Function.iterate_succ, buyClicked, addHistoryEntry, numberF2_cellToDouble]

/-- C4, the claim as stated fails: after one market buy the ongoing table holds one
entry; the first click on "Close Selected Order" moves it to the completed table; the
table is then empty, no row is selected any more, and a second click is not refused with
AlreadyCompletedError: the handler returns normally and silently, leaving the window as
it is. -/
theorem closeOrder_second_click_no_error :
    oneBuyWindow.ongoingTable = [⟨"Market Buy", 10023, 10, "10:00:00"⟩] ∧
      closeOrderClicked oneBuyWindow 0 =
        some { oneBuyWindow with
          ongoingTable := []
          completedTable := [⟨"Market Buy", 10023, 10, "10:00:00"⟩] } ∧
      closeOrder
          { oneBuyWindow with
            ongoingTable := []
            completedTable := [⟨"Market Buy", 10023, 10, "10:00:00"⟩] } (-1) =
        some (Except.ok { oneBuyWindow with
          ongoingTable := []
          completedTable := [⟨"Market Buy", 10023, 10, "10:00:00"⟩] }) ∧
      closeOrder
          { oneBuyWindow with
            ongoingTable := []
            completedTable := [⟨"Market Buy", 10023, 10, "10:00:00"⟩] } (-1) ≠
        some (Except.error EngineError.AlreadyCompletedError) := by
  rw [oneBuyWindow_eq]
  refine ⟨rfl, ?_, ?_, ?_⟩
  · simp [closeOrderClicked, moveOrderToCompleted, numberF2_cellToDouble]
  · simp [closeOrder, closeOrderClicked]
  · simp [closeOrder, closeOrderClicked]

/-- C4 (amended). For every entry present in the ongoing table at the selected row,
closing succeeds and moves exactly that entry: it becomes the last row of the completed
table and is removed from the ongoing table, which gets one row shorter, so it cannot be
selected and closed a second time; it then occurs once more in the completed table and
once less in the ongoing table than before, while the bid and ask tables are untouched
and the entries of the ongoing and completed tables taken together are the same as
before. No error is ever reported: a click with no row selected returns normally and does
nothing. -/
theorem closeOrderClicked_moves_selected (w : Window) (currentRow : Int)
    (item : HistoryRow) (hsel : 0 ≤ currentRow)
    (hrow : w.ongoingTable[currentRow.toNat]? = some item) :
    closeOrderClicked w currentRow =
        some { w with
          ongoingTable := w.ongoingTable.eraseIdx currentRow.toNat
          completedTable := w.completedTable ++ [item] } ∧
      (w.ongoingTable.eraseIdx currentRow.toNat).length + 1 = w.ongoingTable.length ∧
      (w.ongoingTable.eraseIdx currentRow.toNat ++ (w.completedTable ++ [item])).Perm
        (w.ongoingTable ++ w.completedTable) ∧
      (w.completedTable ++ [item]).count item = w.completedTable.count item + 1 ∧
      (w.ongoingTable.eraseIdx currentRow.toNat).count item + 1 =
        w.ongoingTable.count item ∧
      (∀ r : Int, r < 0 → closeOrderClicked w r = some w ∧
        closeOrder w r = some (Except.ok w)) := by
  refine ⟨?_, length_eraseIdx_add_one _ _ _ hrow, ?_, ?_, ?_, ?_⟩
  · unfold closeOrderClicked
    rw [if_pos hsel, moveOrderToCompleted_eq _ _ _ item hsel hrow]
  · have hp := perm_cons_eraseIdx _ _ _ hrow
    rw [← List.append_assoc]
    exact (List.perm_append_singleton item _).trans (hp.append_right w.completedTable).symm
  · simp
  · have hp := (perm_cons_eraseIdx _ _ _ hrow).count_eq item
    rw [hp]
    simp
  · intro r hr
    have h : closeOrderClicked w r = some w := by
      unfold closeOrderClicked
      rw [if_neg (not_le.2 hr)]
    exact ⟨h, by unfold closeOrder; rw [h]; rfl⟩

/-- C4 witness: closing row 1 of the window with two ongoing market buys. -/
theorem closeOrderClicked_moves_selected_witness :
    (0 : Int) ≤ 1 ∧
      twoBuysWindow.ongoingTable[(1 : Int).toNat]? =
        some ⟨"Market Buy", 10037, 50, "10:00:01"⟩ ∧
      closeOrderClicked twoBuysWindow 1 =
        some { twoBuysWindow with
          ongoingTable := twoBuysWindow.ongoingTable.eraseIdx (1 : Int).toNat
          completedTable :=
            twoBuysWindow.completedTable ++ [⟨"Market Buy", 10037, 50, "10:00:01"⟩] } :=
  have hrow : twoBuysWindow.ongoingTable[(1 : Int).toNat]? =
      some ⟨"Market Buy", 10037, 50, "10:00:01"⟩ := by
    rw [twoBuysWindow_eq]
    rfl
  ⟨by decide, hrow,
    (closeOrderClicked_moves_selected twoBuysWindow 1 _ (by decide) hrow).1⟩

/-- C5, the claim as stated fails: on the window shown after a timer tick the market Buy
records the first ask row, (100.23, 10), although an ask at the better price 100.01 is on
the book; the entry is the first row, not the best resting order. -/
theorem marketBuy_not_best_price :
    (buyClicked refreshedWindow "10:00:00").ongoingTable =
        [⟨"Market Buy", 10023, 10, "10:00:00"⟩] ∧
      (⟨10001, 90⟩ : BookRow) ∈ refreshedWindow.askTable ∧
      (10001 : Int) < 10023 := by
  rw [refreshedWindow_eq]
  refine ⟨?_, by decide, by decide⟩
  simp [buyClicked, addHistoryEntry, numberF2_cellToDouble]

/-- C5 (amended). When the ask table is non-empty a market Buy adds exactly one entry to
the ongoing table, of type "Market Buy", carrying the price and quantity of the first ask
row as displayed; when the bid table is non-empty a market Sell adds exactly one entry,
of type "Market Sell", carrying the price and quantity of the first bid row as displayed.
No price is compared: the first row is the one the quote generator produced first. -/
theorem marketOrder_takes_first_row (w : Window) (now : String) :
    (∀ top rest, w.askTable = top :: rest →
      (buyClicked w now).ongoingTable =
        w.ongoingTable ++ [⟨"Market Buy", top.price, top.quantity, now⟩]) ∧
    (∀ top rest, w.bidTable = top :: rest →
      (sellClicked w now).ongoingTable =
        w.ongoingTable ++ [⟨"Market Sell", top.price, top.quantity, now⟩]) := by
  constructor
  · intro top rest h
    simp [buyClicked, h, addHistoryEntry, numberF2_cellToDouble]
  · intro top rest h
    simp [sellClicked, h, addHistoryEntry, numberF2_cellToDouble]

/-- C5 witness: on the window showing asks 100.23 x 10, 100.37 x 50, ... and bids
99.97 x 10, 99.83 x 50, ..., a market Buy records (100.23, 10) and a market Sell records
(99.97, 10). -/
theorem marketOrder_takes_first_row_witness :
    (buyClicked refreshedWindow "10:00:00").ongoingTable =
        refreshedWindow.ongoingTable ++ [⟨"Market Buy", 10023, 10, "10:00:00"⟩] ∧
      (sellClicked refreshedWindow "10:00:00").ongoingTable =
        refreshedWindow.ongoingTable ++ [⟨"Market Sell", 9997, 10, "10:00:00"⟩] :=
  ⟨(marketOrder_takes_first_row refreshedWindow "10:00:00").1 ⟨10023, 10⟩
      [⟨10037, 50⟩, ⟨10001, 90⟩, ⟨10015, 30⟩, ⟨10029, 70⟩]
      (by rw [refreshedWindow_eq]),
    (marketOrder_takes_first_row refreshedWindow "10:00:00").2 ⟨9997, 10⟩
      [⟨9983, 50⟩, ⟨9969, 90⟩, ⟨9955, 30⟩, ⟨9991, 70⟩]
      (by rw [refreshedWindow_eq])⟩

/-- C6, the claim as stated fails: before the first timer tick the ask table is empty; a
click on Buy then leaves all four tables as they are, but it does not fail with
NoLiquidityError: the handler returns normally and silently. -/
theorem marketBuy_no_asks_no_error :
    initialWindow.askTable = [] ∧
      buyClicked initialWindow "10:00:00" = initialWindow ∧
      executeMarketBuy initialWindow "10:00:00" = Except.ok initialWindow ∧
      executeMarketBuy initialWindow "10:00:00" ≠
        Except.error EngineError.NoLiquidityError := by
  refine ⟨rfl, rfl, rfl, ?_⟩
  simp [executeMarketBuy]

/-- C6 (amended). When the ask table is empty a market Buy records no trade, reports no
error (the click returns normally) and changes nothing: the bid, ask, ongoing and
completed tables are all the same after the click as before. -/
theorem buyClicked_no_asks (w : Window) (now : String) (hempty : w.askTable = []) :
    buyClicked w now = w ∧ executeMarketBuy w now = Except.ok w := by
  have h : buyClicked w now = w := by
    unfold buyClicked
    rw [hempty]
  exact ⟨h, by unfold executeMarketBuy; rw [h]⟩

/-- C6 witness: a market Buy on the window left by five market buys, which has bids and
ongoing entries but no ask. -/
theorem buyClicked_no_asks_witness :
    noAsksWindow.askTable = [] ∧ buyClicked noAsksWindow "10:00:01" = noAsksWindow ∧
      executeMarketBuy noAsksWindow "10:00:01" = Except.ok noAsksWindow :=
  ⟨by rw [noAsksWindow_eq], buyClicked_no_asks noAsksWindow "10:00:01" (by rw [noAsksWindow_eq])⟩

/-- C7, the claim as stated fails: on the window shown after a timer tick, a market Buy
removes the matched first ask row (100.23, 10) and a market Sell removes the matched first
bid row (99.97, 10). -/
theorem marketOrder_removes_matched_row :
    refreshedWindow.askTable =
        [⟨10023, 10⟩, ⟨10037, 50⟩, ⟨10001, 90⟩, ⟨10015, 30⟩, ⟨10029, 70⟩] ∧
      (buyClicked refreshedWindow "10:00:00").askTable =
        [⟨10037, 50⟩, ⟨10001, 90⟩, ⟨10015, 30⟩, ⟨10029, 70⟩] ∧
      (buyClicked refreshedWindow "10:00:00").askTable ≠ refreshedWindow.askTable ∧
      refreshedWindow.bidTable =
        [⟨9997, 10⟩, ⟨9983, 50⟩, ⟨9969, 90⟩, ⟨9955, 30⟩, ⟨9991, 70⟩] ∧
      (sellClicked refreshedWindow "10:00:00").bidTable =
        [⟨9983, 50⟩, ⟨9969, 90⟩, ⟨9955, 30⟩, ⟨9991, 70⟩] ∧
      (sellClicked refreshedWindow "10:00:00").bidTable ≠ refreshedWindow.bidTable := by
  rw [refreshedWindow_eq]
  refine ⟨rfl, rfl, ?_, rfl, rfl, ?_⟩ <;> decide

/-- C7 (amended). A market order removes the matched row from the opposite side: after a
market Buy the ask table is the former ask table without its first row, after a market
Sell the bid table is the former bid table without its first row; the table of the
order's own side and the completed table are unchanged, so only closing an order adds to
the completed orders. -/
theorem marketOrder_removes_first_row (w : Window) (now : String) :
    (buyClicked w now).askTable = w.askTable.tail ∧
      (buyClicked w now).bidTable = w.bidTable ∧
      (buyClicked w now).completedTable = w.completedTable ∧
      (sellClicked w now).bidTable = w.bidTable.tail ∧
      (sellClicked w now).askTable = w.askTable ∧
      (sellClicked w now).completedTable = w.completedTable := by
  refine ⟨?_, ?_, ?_, ?_, ?_, ?_⟩
  · unfold buyClicked
    cases h : w.askTable <;> simp [h]
  · unfold buyClicked
    cases h : w.askTable <;> simp [h]
  · unfold buyClicked
    cases h : w.askTable <;> simp [h]
  · unfold sellClicked
    cases h : w.bidTable <;> simp [h]
  · unfold sellClicked
    cases h : w.bidTable <;> simp [h]
  · unfold sellClicked
    cases h : w.bidTable <;> simp [h]

/-! ## Quote generation -/

theorem generateRandomOrdersFrom_length (isBid : Bool) (base : ℚ) (draws : Nat → Int)
    (n pos : Nat) : (generateRandomOrdersFrom isBid base draws n pos).length = n := by
  induction n generalizing pos with
  | zero => rfl
  | succ m ih => simp [generateRandomOrdersFrom, ih]

theorem generateRandomOrdersFrom_bounds (isBid : Bool) (base : ℚ) (draws : Nat → Int)
    (hdraws : ∀ k, 0 ≤ draws k) (n pos : Nat) :
    ∀ d ∈ generateRandomOrdersFrom isBid base draws n pos,
      (∃ k : Int, 1 ≤ k ∧ k ≤ 10 ∧ d.2 = k * 10) ∧
      (isBid = true → base - 1 / 2 ≤ d.1 ∧ d.1 ≤ base) ∧
      (isBid = false → base ≤ d.1 ∧ d.1 ≤ base + 1 / 2) := by
  induction n generalizing pos with
  | zero => intro d hd; cases hd
  | succ m ih =>
    intro d hd
    simp only [generateRandomOrdersFrom, List.mem_cons] at hd
    rcases hd with rfl | hd
    · have h0 : 0 ≤ Int.tmod (draws pos) 50 := Int.tmod_nonneg _ (hdraws pos)
      have h1 : Int.tmod (draws pos) 50 < 50 := Int.tmod_lt_of_pos _ (by decide)
      have q0 : 0 ≤ Int.tmod (draws (pos + 1)) 10 := Int.tmod_nonneg _ (hdraws (pos + 1))
      have q1 : Int.tmod (draws (pos + 1)) 10 < 10 := Int.tmod_lt_of_pos _ (by decide)
      have h0' : (0 : ℚ) ≤ ((Int.tmod (draws pos) 50 : Int) : ℚ) := by exact_mod_cast h0
      have h1' : ((Int.tmod (draws pos) 50 : Int) : ℚ) ≤ 49 := by
        have : Int.tmod (draws pos) 50 ≤ 49 := by omega
        exact_mod_cast this
      refine ⟨⟨Int.tmod (draws (pos + 1)) 10 + 1, by omega, by omega, rfl⟩, ?_, ?_⟩
      · intro hb
        simp only [hb, if_true]
        constructor <;> linarith
      · intro hb
        simp only [hb, Bool.false_eq_true, if_false]
        constructor <;> linarith
    · exact ih (pos + 2) d hd

/-- C9. For every base price, every `count ≥ 0` and every sequence of non-negative
`rand()` results, `generateRandomOrders` returns exactly `count` drafts; each has a
quantity `k * 10` with `1 ≤ k ≤ 10`, and a price in `[base - 0.50, base]` for bid quotes
or in `[base, base + 0.50]` for ask quotes. -/
theorem generateRandomOrders_bounds (isBid : Bool) (base : ℚ) (count : Int)
    (draws : Nat → Int) (hcount : 0 ≤ count) (hdraws : ∀ k, 0 ≤ draws k) :
    ((generateRandomOrders isBid base count draws).length : Int) = count ∧
      ∀ d ∈ generateRandomOrders isBid base count draws,
        (∃ k : Int, 1 ≤ k ∧ k ≤ 10 ∧ d.2 = k * 10) ∧
        (isBid = true → base - 1 / 2 ≤ d.1 ∧ d.1 ≤ base) ∧
        (isBid = false → base ≤ d.1 ∧ d.1 ≤ base + 1 / 2) := by
  unfold generateRandomOrders
  refine ⟨?_, generateRandomOrdersFrom_bounds isBid base draws hdraws _ _⟩
  rw [generateRandomOrdersFrom_length]
  exact Int.toNat_of_nonneg hcount

/-- C9 witness: `generateRandomOrders(true, 100.0, 5)` on the draws 3, 10, 17, ... returns
5 drafts, each with price in `[99.50, 100.0]` and quantity in `{10, ..., 100}`. -/
theorem generateRandomOrders_bounds_witness :
    (0 : Int) ≤ 5 ∧ (∀ k, 0 ≤ sampleDraws k) ∧
      ((generateRandomOrders true 100 5 sampleDraws).length : Int) = 5 ∧
      ∀ d ∈ generateRandomOrders true 100 5 sampleDraws,
        (∃ k : Int, 1 ≤ k ∧ k ≤ 10 ∧ d.2 = k * 10) ∧
          (100 : ℚ) - 1 / 2 ≤ d.1 ∧ d.1 ≤ 100 :=
  have hdraws : ∀ k, 0 ≤ sampleDraws k := fun k => by unfold sampleDraws; omega
  ⟨by decide, hdraws,
    (generateRandomOrders_bounds true 100 5 sampleDraws (by decide) hdraws).1,
    fun d hd =>
      ⟨((generateRandomOrders_bounds true 100 5 sampleDraws (by decide) hdraws).2 d hd).1,
        ((generateRandomOrders_bounds true 100 5 sampleDraws (by decide) hdraws).2 d hd).2.1
          rfl⟩⟩

end TradingEngine
